import Mathlib

/-!
Shallow embedding of the rate-limiting middleware of `src/middleware.ts`
(repository `alx-polly`).

The source keeps a module-level `Map` from IP strings to records
`{ count, resetAt }`; `isRateLimited` reads the clock, looks the key up,
and either starts a fresh window or increments the count in place.  The
map is embedded as a function `String → Option RateRecord`, the clock as
an explicit `now : Nat` argument, and each call returns the decision
together with the updated table.  Note that in the source the reject
branch (`return true` on line 56) happens before the `ipHits.set` on
line 60, but `record.count += 1` mutates the object already stored in
the map, so the count is persisted on rejection as well; the embedding
stores the incremented record on both branches accordingly.
-/

namespace AlxPolly

/-- `RATE_LIMIT_WINDOW_MS = 60_000` from `src/middleware.ts` line 12. -/
def RATE_LIMIT_WINDOW_MS : Nat := 60000

/-- `RATE_LIMIT_MAX = 10` from `src/middleware.ts` line 13. -/
def RATE_LIMIT_MAX : Nat := 10

/-- The per-key entry `{ count: number; resetAt: number }` of the
`ipHits` map (`src/middleware.ts` line 14). -/
structure RateRecord where
  count : Nat
  resetAt : Nat
  deriving Repr, DecidableEq

/-- The `ipHits` map: a partial map from IP strings to records. -/
def IpHits : Type := String → Option RateRecord

/-- The initial, empty `ipHits` map (`new Map()`). -/
def emptyHits : IpHits := fun _ => none

/-- `isRateLimited` from `src/middleware.ts` lines 41–62, with the
mutable map and the clock made explicit: returns the boolean decision
(`true` = rate limited / reject) and the table after the call. -/
def isRateLimited (hits : IpHits) (ip : String) (now : Nat) :
    Bool × IpHits :=
  match hits ip with
  | none =>
      (false, fun k =>
        if k = ip then some { count := 1, resetAt := now + RATE_LIMIT_WINDOW_MS }
        else hits k)
  | some record =>
      if record.resetAt < now then
        (false, fun k =>
          if k = ip then some { count := 1, resetAt := now + RATE_LIMIT_WINDOW_MS }
          else hits k)
      else
        let record' : RateRecord := { record with count := record.count + 1 }
        if record'.count > RATE_LIMIT_MAX then
          (true, fun k => if k = ip then some record' else hits k)
        else
          (false, fun k => if k = ip then some record' else hits k)

/-- Run a sequence of calls `(ip, now)` through the limiter, returning
the final table. -/
def runCalls (hits : IpHits) : List (String × Nat) → IpHits
  | [] => hits
  | (ip, now) :: rest => runCalls (isRateLimited hits ip now).2 rest

/-- Run a sequence of calls `(ip, now)` through the limiter, returning
the list of decisions, in order. -/
def runDecisions (hits : IpHits) : List (String × Nat) → List Bool
  | [] => []
  | (ip, now) :: rest =>
      (isRateLimited hits ip now).1 ::
        runDecisions (isRateLimited hits ip now).2 rest

/-- A table is reachable when some sequence of calls produces it from
the empty map the module starts with. -/
def Reachable (hits : IpHits) : Prop :=
  ∃ calls : List (String × Nat), hits = runCalls emptyHits calls

/-- A one-entry table, used to instantiate theorems at concrete states. -/
def singleHits (ip : String) (r : RateRecord) : IpHits :=
  fun k => if k = ip then some r else none

/-- The request data the middleware inspects: HTTP method, URL path,
the direct connection address `request.ip` (absent in many deployments),
and the raw `x-forwarded-for` header value (absent when the header is
missing). -/
structure MwRequest where
  method : String
  pathname : String
  ip : Option String
  xff : Option String

/-- The middleware's possible outcomes: a rate-limit block carrying the
response body and HTTP status of the `new NextResponse` call on
line 107 (body 'Too Many Requests', status 429), or handing the request
on to `updateSession(request)` (session refresh / authentication). -/
inductive MwResponse where
  | rateLimitBlock (body : String) (status : Nat)
  | sessionRefresh
  deriving Repr, DecidableEq

/-- The first entry of a comma-separated header value: everything up to
the first comma, exactly what `h.split(',')[0]` yields in the source
(also for the empty string, where both give the empty string). -/
def firstCommaEntry (s : String) : String :=
  String.mk (s.data.takeWhile fun c => c != ',')

/-- Whitespace trimming as in the source's `.trim()`: drop leading and
trailing whitespace characters. -/
def jsTrim (s : String) : String :=
  String.mk
    (((s.data.dropWhile Char.isWhitespace).reverse.dropWhile
        Char.isWhitespace).reverse)

/-- The forwarded-address fallback of `src/middleware.ts` line 103:
`request.headers.get('x-forwarded-for')?.split(',')[0]?.trim()`, with
the final `|| 'unknown'` applied to it.  A missing header, like a first
entry that trims to the empty string (falsy in the source), yields the
sentinel. -/
def xffClientIp : Option String → String
  | none => "unknown"
  | some h =>
      let first := jsTrim (firstCommaEntry h)
      if first = "" then "unknown" else first

/-- The full key derivation of line 103:
`request.ip || request.headers.get('x-forwarded-for')?.split(',')[0]?.trim() || 'unknown'`.
`request.ip` wins unless it is absent or the empty string (both falsy). -/
def clientIp (ip : Option String) (xff : Option String) : String :=
  match ip with
  | some s => if s = "" then xffClientIp xff else s
  | none => xffClientIp xff

/-- Line 99: rate limiting applies to POST requests for `/login` or
`/create` only. -/
def isProtectedPath (req : MwRequest) : Bool :=
  req.method == "POST" && (req.pathname == "/login" || req.pathname == "/create")

/-- The `middleware` function of `src/middleware.ts` lines 96–113 with
the shared table and the clock explicit: on a protected path it derives
the client key, consults the limiter (which always updates the table),
and blocks with a 429 on rejection; otherwise it proceeds to the
session-refresh step. -/
def middleware (hits : IpHits) (req : MwRequest) (now : Nat) :
    MwResponse × IpHits :=
  if isProtectedPath req then
    let res := isRateLimited hits (clientIp req.ip req.xff) now
    if res.1 then (MwResponse.rateLimitBlock "Too Many Requests" 429, res.2)
    else (MwResponse.sessionRefresh, res.2)
  else (MwResponse.sessionRefresh, hits)

example : (isRateLimited emptyHits "1.2.3.4" 0).1 = false := by decide
example :
    (isRateLimited emptyHits "1.2.3.4" 0).2 "1.2.3.4" =
      some { count := 1, resetAt := 60000 } := by decide

/-- A call on a fresh key (no record, or an expired one) admits and
installs a record with count 1 and a full window. -/
theorem isRateLimited_fresh (hits : IpHits) (ip : String) (now : Nat)
    (h : hits ip = none ∨ ∃ r, hits ip = some r ∧ r.resetAt < now) :
    isRateLimited hits ip now =
      (false, fun k =>
        if k = ip then some { count := 1, resetAt := now + RATE_LIMIT_WINDOW_MS }
        else hits k) := by
  rcases h with h | ⟨r, hr, hlt⟩
  · simp [isRateLimited, h]
  · simp [isRateLimited, hr, hlt]

/-- A call inside the current window increments the count, keeps the
reset time, and rejects exactly when the new count exceeds the max. -/
theorem isRateLimited_inWindow (hits : IpHits) (ip : String) (now c R : Nat)
    (hr : hits ip = some ⟨c, R⟩) (hin : now ≤ R) :
    isRateLimited hits ip now =
      (decide (RATE_LIMIT_MAX < c + 1),
       fun k => if k = ip then some ⟨c + 1, R⟩ else hits k) := by
  have hnl : ¬ R < now := not_lt.mpr hin
  by_cases hc : RATE_LIMIT_MAX < c + 1
  · simp [isRateLimited, hr, hnl, hc]
  · simp [isRateLimited, hr, hnl, hc]

/-- Running a batch of same-key calls that all fall inside the current
window: the i-th call (0-based) decides by whether `c + i + 1` exceeds
the max, and the final count is `c + n` with the reset time untouched. -/
theorem runDecisions_inWindow (ts : List Nat) :
    ∀ (hits : IpHits) (ip : String) (c R : Nat),
      hits ip = some ⟨c, R⟩ → (∀ t ∈ ts, t ≤ R) →
      runDecisions hits (ts.map fun t => (ip, t)) =
        (List.range ts.length).map
          (fun i => decide (RATE_LIMIT_MAX < c + i + 1)) ∧
      runCalls hits (ts.map fun t => (ip, t)) ip = some ⟨c + ts.length, R⟩ := by
  induction ts with
  | nil => intro hits ip c R hr _; exact ⟨rfl, by simpa [runCalls] using hr⟩
  | cons t ts ih =>
      intro hits ip c R hr hin
      have hstep := isRateLimited_inWindow hits ip t c R hr (hin t (by simp))
      have hr' : (isRateLimited hits ip t).2 ip = some ⟨c + 1, R⟩ := by
        rw [hstep]; simp
      obtain ⟨hdec, hrun⟩ :=
        ih (isRateLimited hits ip t).2 ip (c + 1) R hr'
          (fun s hs => hin s (by simp [hs]))
      constructor
      · show (isRateLimited hits ip t).1 ::
            runDecisions (isRateLimited hits ip t).2 (ts.map fun s => (ip, s)) = _
        rw [hdec, hstep]
        simp only [List.length_cons, List.range_succ_eq_map, List.map_cons,
          List.map_map]
        congr 1
        simp only [List.map_inj_left, Function.comp, List.mem_range,
          decide_eq_decide]
        intro i _
        omega
      · show runCalls (isRateLimited hits ip t).2 (ts.map fun s => (ip, s)) ip = _
        rw [hrun]
        simp only [List.length_cons]
        have h2 : c + 1 + ts.length = c + (ts.length + 1) := by omega
        rw [h2]

/-- Decisions of a batch of in-window calls starting from count 1:
nine more admissions, then rejections. -/
theorem decisions_shape (m : Nat) (hm : 9 ≤ m) :
    (List.range m).map (fun i => decide (RATE_LIMIT_MAX < 1 + i + 1)) =
      List.replicate 9 false ++ List.replicate (m - 9) true := by
  induction m, hm using Nat.le_induction with
  | base => decide
  | succ m hm ih =>
      have h9 : m + 1 - 9 = (m - 9) + 1 := by omega
      have ht : (decide (RATE_LIMIT_MAX < 1 + m + 1)) = true := by
        simp only [RATE_LIMIT_MAX, decide_eq_true_eq]; omega
      rw [List.range_succ, List.map_append, ih, h9]
      simp [ht, List.append_assoc, List.replicate_succ']

/-- C1: for a fresh key (no record, or an expired one) and the source's
`RATE_LIMIT_MAX = 10`, eleven calls for that key whose timestamps all
fall inside the window opened by the first call produce ten admissions
(false) followed by the first rejection (true): the boundary check is
`count > max`, so exactly `RATE_LIMIT_MAX` requests are admitted. -/
theorem claimC1_admit_up_to_limit (hits : IpHits) (ip : String) (t1 : Nat)
    (ts : List Nat)
    (hfresh : hits ip = none ∨ ∃ r, hits ip = some r ∧ r.resetAt < t1)
    (hlen : ts.length = 10)
    (hin : ∀ t ∈ ts, t ≤ t1 + RATE_LIMIT_WINDOW_MS) :
    runDecisions hits ((ip, t1) :: ts.map fun t => (ip, t)) =
      List.replicate RATE_LIMIT_MAX false ++ [true] := by
  have hstep := isRateLimited_fresh hits ip t1 hfresh
  have hr' : (isRateLimited hits ip t1).2 ip =
      some ⟨1, t1 + RATE_LIMIT_WINDOW_MS⟩ := by
    rw [hstep]; simp
  obtain ⟨hdec, -⟩ := runDecisions_inWindow ts (isRateLimited hits ip t1).2 ip 1
      (t1 + RATE_LIMIT_WINDOW_MS) hr' hin
  show (isRateLimited hits ip t1).1 ::
      runDecisions (isRateLimited hits ip t1).2 (ts.map fun t => (ip, t)) = _
  rw [hdec, hlen, hstep]
  show false :: (List.range 10).map (fun i => decide (RATE_LIMIT_MAX < 1 + i + 1)) =
      List.replicate RATE_LIMIT_MAX false ++ [true]
  decide

/-- Witness for C1 at a concrete input: eleven calls for `"1.2.3.4"`,
all at t = 0, from the empty table. -/
theorem claimC1_witness :
    runDecisions emptyHits
        (("1.2.3.4", 0) :: (List.replicate 10 (0 : Nat)).map fun t => ("1.2.3.4", t)) =
      List.replicate RATE_LIMIT_MAX false ++ [true] :=
  claimC1_admit_up_to_limit emptyHits "1.2.3.4" 0 (List.replicate 10 0)
    (Or.inl rfl) (by decide) (by decide)

/-- C2 counterexample: the claim says a call at `now` exactly equal to
`windowResetAt` starts a new window (Admit, record replaced by
count 1 / resetAt now + window).  In the source the expiry test is
`record.resetAt < now` (strict), so after ten admitted calls at t = 0
(record {count 10, resetAt 60000}) the call at t = 60000 is REJECTED
and the record becomes {count 11, resetAt 60000}. -/
theorem claimC2_counterexample :
    runCalls emptyHits (List.replicate 10 ("1.2.3.4", 0)) "1.2.3.4" =
        some { count := 10, resetAt := 60000 } ∧
    (isRateLimited (runCalls emptyHits (List.replicate 10 ("1.2.3.4", 0)))
        "1.2.3.4" 60000).1 = true ∧
    (isRateLimited (runCalls emptyHits (List.replicate 10 ("1.2.3.4", 0)))
        "1.2.3.4" 60000).2 "1.2.3.4" =
      some { count := 11, resetAt := 60000 } := by
  decide

/-- C2 amended: a call whose timestamp equals `windowResetAt` exactly is
still inside the expiring window (the expiry comparison is
`windowResetAt < now`, strict): it increments the count, keeps
`windowResetAt`, and rejects iff the new count exceeds the max.  Only a
call strictly after `windowResetAt` starts a brand-new window with
count 1 and `windowResetAt = now + windowDurationMs`, regardless of the
previous count. -/
theorem claimC2_boundary (hits : IpHits) (ip : String) (c R : Nat)
    (hrec : hits ip = some ⟨c, R⟩) :
    ((isRateLimited hits ip R).1 = decide (RATE_LIMIT_MAX < c + 1) ∧
     (isRateLimited hits ip R).2 ip = some ⟨c + 1, R⟩) ∧
    ∀ now, R < now →
      (isRateLimited hits ip now).1 = false ∧
      (isRateLimited hits ip now).2 ip = some ⟨1, now + RATE_LIMIT_WINDOW_MS⟩ := by
  constructor
  · have h := isRateLimited_inWindow hits ip R c R hrec le_rfl
    rw [h]
    exact ⟨rfl, by simp⟩
  · intro now hnow
    have h := isRateLimited_fresh hits ip now (Or.inr ⟨_, hrec, hnow⟩)
    rw [h]
    exact ⟨rfl, by simp⟩

/-- Witness for the amended C2 at a concrete record {count 3, resetAt 60000}:
the call at 60000 stays in the window, the call at 60001 opens a new one. -/
theorem claimC2_witness :
    ((isRateLimited (singleHits "a" ⟨3, 60000⟩) "a" 60000).1 =
        decide (RATE_LIMIT_MAX < 3 + 1) ∧
     (isRateLimited (singleHits "a" ⟨3, 60000⟩) "a" 60000).2 "a" =
        some ⟨3 + 1, 60000⟩) ∧
    (isRateLimited (singleHits "a" ⟨3, 60000⟩) "a" 60001).1 = false :=
  ⟨(claimC2_boundary (singleHits "a" ⟨3, 60000⟩) "a" 3 60000 (by decide)).1,
   ((claimC2_boundary (singleHits "a" ⟨3, 60000⟩) "a" 3 60000 (by decide)).2
      60001 (by decide)).1⟩

/-- C3: once strictly more than `RATE_LIMIT_WINDOW_MS` has elapsed past
the timestamp `t0` that started the key's current window (so now is
strictly past the stored `resetAt = t0 + window`), the next call admits
and resets the stored count to 1, whatever the old count was. -/
theorem claimC3_window_reset (hits : IpHits) (ip : String) (c t0 now : Nat)
    (hrec : hits ip = some ⟨c, t0 + RATE_LIMIT_WINDOW_MS⟩)
    (hlate : t0 + RATE_LIMIT_WINDOW_MS < now) :
    (isRateLimited hits ip now).1 = false ∧
    (isRateLimited hits ip now).2 ip = some ⟨1, now + RATE_LIMIT_WINDOW_MS⟩ := by
  have h := isRateLimited_fresh hits ip now (Or.inr ⟨_, hrec, hlate⟩)
  rw [h]
  exact ⟨rfl, by simp⟩

/-- Witness for C3 at a concrete state: a record with count 50 whose
window started at t0 = 0; the call at 60001 admits and resets to 1. -/
theorem claimC3_witness :
    (isRateLimited (singleHits "a" ⟨50, 0 + RATE_LIMIT_WINDOW_MS⟩) "a" 60001).1 = false ∧
    (isRateLimited (singleHits "a" ⟨50, 0 + RATE_LIMIT_WINDOW_MS⟩) "a" 60001).2 "a" =
      some ⟨1, 60001 + RATE_LIMIT_WINDOW_MS⟩ :=
  claimC3_window_reset (singleHits "a" ⟨50, 0 + RATE_LIMIT_WINDOW_MS⟩) "a" 50 0 60001
    (by decide) (by decide)

/-- C4: once a call for a key has been rejected the stored count exceeds
the max, so every further call inside the same window rejects and still
adds exactly 1 to the count, which therefore grows without bound while
the window lasts; no admission recurs before the reset time passes. -/
theorem claimC4_reject_persists (hits : IpHits) (ip : String) (c R : Nat)
    (ts : List Nat)
    (hc : RATE_LIMIT_MAX < c)
    (hrec : hits ip = some ⟨c, R⟩)
    (hin : ∀ t ∈ ts, t ≤ R) :
    runDecisions hits (ts.map fun t => (ip, t)) = List.replicate ts.length true ∧
    runCalls hits (ts.map fun t => (ip, t)) ip = some ⟨c + ts.length, R⟩ := by
  obtain ⟨hdec, hrun⟩ := runDecisions_inWindow ts hits ip c R hrec hin
  refine ⟨?_, hrun⟩
  rw [hdec]
  rw [List.eq_replicate_iff]
  refine ⟨by simp, ?_⟩
  intro b hb
  simp only [List.mem_map, List.mem_range] at hb
  obtain ⟨i, -, rfl⟩ := hb
  simp only [decide_eq_true_eq]
  omega

/-- Witness for C4: record {count 11, resetAt 60000} (just rejected);
two more calls at 5 and 60000 both reject and push the count to 13. -/
theorem claimC4_witness :
    runDecisions (singleHits "a" ⟨11, 60000⟩)
        (([5, 60000] : List Nat).map fun t => ("a", t)) =
      List.replicate ([5, 60000] : List Nat).length true ∧
    runCalls (singleHits "a" ⟨11, 60000⟩)
        (([5, 60000] : List Nat).map fun t => ("a", t)) "a" =
      some ⟨11 + ([5, 60000] : List Nat).length, 60000⟩ :=
  claimC4_reject_persists (singleHits "a" ⟨11, 60000⟩) "a" 11 60000 [5, 60000]
    (by decide) (by decide) (by decide)

/-- A call only ever touches its own key: every other key's entry is
returned unchanged. -/
theorem isRateLimited_snd_other (hits : IpHits) (ip : String) (now : Nat)
    (k : String) (hk : k ≠ ip) :
    (isRateLimited hits ip now).2 k = hits k := by
  rcases hrec : hits ip with - | rec
  · simp [isRateLimited, hrec, hk]
  · simp only [isRateLimited, hrec]
    split_ifs <;> simp [hk]

/-- What a call stores under its own key: either a fresh record
(count 1, full window, admitted) or the old record with the count
bumped and the reset time untouched. -/
theorem isRateLimited_snd_self (hits : IpHits) (ip : String) (now : Nat) :
    ((isRateLimited hits ip now).2 ip = some ⟨1, now + RATE_LIMIT_WINDOW_MS⟩ ∧
      (isRateLimited hits ip now).1 = false) ∨
    ∃ c R, hits ip = some ⟨c, R⟩ ∧ ¬ R < now ∧
      (isRateLimited hits ip now).2 ip = some ⟨c + 1, R⟩ := by
  rcases hrec : hits ip with - | rec
  · left
    have h := isRateLimited_fresh hits ip now (Or.inl hrec)
    rw [h]
    exact ⟨by simp, rfl⟩
  · by_cases hlt : rec.resetAt < now
    · left
      have h := isRateLimited_fresh hits ip now (Or.inr ⟨rec, hrec, hlt⟩)
      rw [h]
      exact ⟨by simp, rfl⟩
    · right
      have hrec' : hits ip = some ⟨rec.count, rec.resetAt⟩ := by rw [hrec]
      refine ⟨rec.count, rec.resetAt, rfl, hlt, ?_⟩
      have h := isRateLimited_inWindow hits ip now rec.count rec.resetAt hrec'
        (not_lt.mp hlt)
      rw [h]
      simp

/-- One call preserves the positivity of every stored count. -/
theorem countsPos_step (hits : IpHits) (ip : String) (now : Nat)
    (h : ∀ k r, hits k = some r → 1 ≤ r.count) :
    ∀ k r, (isRateLimited hits ip now).2 k = some r → 1 ≤ r.count := by
  intro k r hk
  by_cases hki : k = ip
  · subst hki
    rcases isRateLimited_snd_self hits k now with ⟨h1, -⟩ | ⟨c, R, -, -, h1⟩
    · rw [h1] at hk
      injection hk with h2
      subst h2
      exact le_refl 1
    · rw [h1] at hk
      injection hk with h2
      subst h2
      exact Nat.le_add_left 1 c
  · rw [isRateLimited_snd_other hits ip now k hki] at hk
    exact h k r hk

/-- Running any sequence of calls preserves positivity of counts. -/
theorem countsPos_runCalls (calls : List (String × Nat)) :
    ∀ hits : IpHits, (∀ k r, hits k = some r → 1 ≤ r.count) →
      ∀ k r, runCalls hits calls k = some r → 1 ≤ r.count := by
  induction calls with
  | nil => intro hits h; exact h
  | cons c rest ih =>
      intro hits h
      exact ih _ (countsPos_step hits c.1 c.2 h)

/-- C5: every record in a reachable table has count ≥ 1 (creation counts
the triggering request), and each call either creates a record whose
`resetAt` is its own timestamp plus the window length, or bumps the
count leaving `resetAt` untouched — the reset time is never moved
mid-window. -/
theorem claimC5_record_invariant :
    (∀ hits : IpHits, Reachable hits → ∀ ip r, hits ip = some r → 1 ≤ r.count) ∧
    (∀ (hits : IpHits) (ip : String) (now : Nat),
      ((isRateLimited hits ip now).2 ip = some ⟨1, now + RATE_LIMIT_WINDOW_MS⟩ ∧
        (isRateLimited hits ip now).1 = false) ∨
      ∃ c R, hits ip = some ⟨c, R⟩ ∧ ¬ R < now ∧
        (isRateLimited hits ip now).2 ip = some ⟨c + 1, R⟩) := by
  constructor
  · rintro hits ⟨calls, rfl⟩
    refine countsPos_runCalls calls emptyHits ?_
    intro k r h
    simp [emptyHits] at h
  · exact fun hits ip now => isRateLimited_snd_self hits ip now

/-- Witness for C5 at a concrete reachable table: one call at t = 5
yields a record with count 1 ≥ 1. -/
theorem claimC5_witness :
    runCalls emptyHits [("a", 5)] "a" = some ⟨1, 60005⟩ ∧
    1 ≤ ({ count := 1, resetAt := 60005 } : RateRecord).count :=
  ⟨by decide,
   claimC5_record_invariant.1 (runCalls emptyHits [("a", 5)])
     ⟨[("a", 5)], rfl⟩ "a" ⟨1, 60005⟩ (by decide)⟩

/-- C6: a call for one key leaves every other key's entry unchanged
(it creates or updates exactly its own entry), and its decision and its
own new entry depend only on its own key's old entry — other keys never
influence the outcome. -/
theorem claimC6_key_independence :
    (∀ (hits : IpHits) (ip : String) (now : Nat) (k : String), k ≠ ip →
      (isRateLimited hits ip now).2 k = hits k) ∧
    (∀ (ha hb : IpHits) (ip : String) (now : Nat), ha ip = hb ip →
      (isRateLimited ha ip now).1 = (isRateLimited hb ip now).1 ∧
      (isRateLimited ha ip now).2 ip = (isRateLimited hb ip now).2 ip) := by
  constructor
  · exact fun hits ip now k hk => isRateLimited_snd_other hits ip now k hk
  · intro ha hb ip now h
    rcases hrec : hb ip with - | rec
    · have e1 := isRateLimited_fresh ha ip now (Or.inl (h.trans hrec))
      have e2 := isRateLimited_fresh hb ip now (Or.inl hrec)
      rw [e1, e2]
      exact ⟨rfl, by simp⟩
    · by_cases hlt : rec.resetAt < now
      · have e1 := isRateLimited_fresh ha ip now (Or.inr ⟨rec, h.trans hrec, hlt⟩)
        have e2 := isRateLimited_fresh hb ip now (Or.inr ⟨rec, hrec, hlt⟩)
        rw [e1, e2]
        exact ⟨rfl, by simp⟩
      · have hrec' : hb ip = some ⟨rec.count, rec.resetAt⟩ := by rw [hrec]
        have e1 := isRateLimited_inWindow ha ip now rec.count rec.resetAt
          (h.trans hrec') (not_lt.mp hlt)
        have e2 := isRateLimited_inWindow hb ip now rec.count rec.resetAt
          hrec' (not_lt.mp hlt)
        rw [e1, e2]
        exact ⟨rfl, by simp⟩

/-- Witness for C6 at concrete keys: a call for `"1.2.3.4"` leaves
`"5.6.7.8"` untouched, and an unrelated entry for `"b"` does not change
the decision for `"a"`. -/
theorem claimC6_witness :
    (isRateLimited emptyHits "1.2.3.4" 0).2 "5.6.7.8" = emptyHits "5.6.7.8" ∧
    (isRateLimited emptyHits "a" 0).1 =
      (isRateLimited (singleHits "b" ⟨3, 60000⟩) "a" 0).1 :=
  ⟨claimC6_key_independence.1 emptyHits "1.2.3.4" 0 "5.6.7.8" (by decide),
   (claimC6_key_independence.2 emptyHits (singleHits "b" ⟨3, 60000⟩) "a" 0
      (by decide)).1⟩

/-- C7, read in the source's execution model: `isRateLimited` is a
synchronous function, so each call's read-check-write runs to completion
as one atomic step and C concurrent calls execute as some interleaving
of C such steps.  Every interleaving of C calls for one fresh key inside
a single window (modelled here as C calls at one timestamp) admits
exactly `RATE_LIMIT_MAX` of them, rejects the remaining
`C - RATE_LIMIT_MAX`, and leaves the count exactly C. -/
theorem claimC7_concurrent_interleaving (hits : IpHits) (ip : String)
    (t C : Nat)
    (hfresh : hits ip = none ∨ ∃ r, hits ip = some r ∧ r.resetAt < t)
    (hC : RATE_LIMIT_MAX < C) :
    runDecisions hits (List.replicate C (ip, t)) =
      List.replicate RATE_LIMIT_MAX false ++
        List.replicate (C - RATE_LIMIT_MAX) true ∧
    runCalls hits (List.replicate C (ip, t)) ip =
      some ⟨C, t + RATE_LIMIT_WINDOW_MS⟩ := by
  have hC' : 10 < C := hC
  obtain ⟨m, rfl⟩ : ∃ m, C = m + 1 := ⟨C - 1, by omega⟩
  have hm : 9 ≤ m := by omega
  rw [List.replicate_succ]
  have hstep := isRateLimited_fresh hits ip t hfresh
  have hr' : (isRateLimited hits ip t).2 ip =
      some ⟨1, t + RATE_LIMIT_WINDOW_MS⟩ := by
    rw [hstep]; simp
  have hmap : (List.replicate m (ip, t) : List (String × Nat)) =
      (List.replicate m t).map fun s => (ip, s) := by
    simp [List.map_replicate]
  obtain ⟨hdec, hrun⟩ := runDecisions_inWindow (List.replicate m t)
      (isRateLimited hits ip t).2 ip 1 (t + RATE_LIMIT_WINDOW_MS) hr'
      (fun s hs => by
        have hst : s = t := List.eq_of_mem_replicate hs
        omega)
  constructor
  · show (isRateLimited hits ip t).1 ::
        runDecisions (isRateLimited hits ip t).2 (List.replicate m (ip, t)) = _
    rw [hmap, hdec, hstep, List.length_replicate, decisions_shape m hm]
    have h10 : (RATE_LIMIT_MAX : Nat) = 10 := rfl
    rw [h10]
    have hsub : m + 1 - 10 = m - 9 := by omega
    rw [hsub]
    rw [show (List.replicate 10 false : List Bool) =
        false :: List.replicate 9 false from rfl]
    rfl
  · show runCalls (isRateLimited hits ip t).2 (List.replicate m (ip, t)) ip = _
    rw [hmap, hrun]
    simp [List.length_replicate, Nat.add_comm]

/-- Witness for C7 at a concrete input: twelve calls for a fresh key at
t = 0 give ten admissions, two rejections, and a final count of 12. -/
theorem claimC7_witness :
    runDecisions emptyHits (List.replicate 12 ("1.2.3.4", 0)) =
      List.replicate RATE_LIMIT_MAX false ++
        List.replicate (12 - RATE_LIMIT_MAX) true ∧
    runCalls emptyHits (List.replicate 12 ("1.2.3.4", 0)) "1.2.3.4" =
      some ⟨12, 0 + RATE_LIMIT_WINDOW_MS⟩ :=
  claimC7_concurrent_interleaving emptyHits "1.2.3.4" 0 12 (Or.inl rfl)
    (by decide)

/-- C8: on a checked (protected-path) request, a limiter rejection makes
the middleware answer with HTTP status 429 and body exactly
"Too Many Requests", never reaching the session-refresh step; a limiter
admission proceeds to the session-refresh step unmodified. -/
theorem claimC8_reject_response (hits : IpHits) (req : MwRequest) (now : Nat) :
    (isProtectedPath req = true →
      (isRateLimited hits (clientIp req.ip req.xff) now).1 = true →
      (middleware hits req now).1 =
        MwResponse.rateLimitBlock "Too Many Requests" 429) ∧
    (isProtectedPath req = true →
      (isRateLimited hits (clientIp req.ip req.xff) now).1 = false →
      (middleware hits req now).1 = MwResponse.sessionRefresh) := by
  constructor
  · intro hp hr
    simp [middleware, hp, hr]
  · intro hp hr
    simp [middleware, hp, hr]

/-- Witness for C8 at concrete requests: a POST to /login from an
over-limit address is blocked with the 429 response; a POST to /create
from a fresh address goes on to session refresh. -/
theorem claimC8_witness :
    (middleware (singleHits "9.9.9.9" ⟨10, 60000⟩)
        ⟨"POST", "/login", some "9.9.9.9", none⟩ 0).1 =
      MwResponse.rateLimitBlock "Too Many Requests" 429 ∧
    (middleware emptyHits ⟨"POST", "/create", some "9.9.9.9", none⟩ 0).1 =
      MwResponse.sessionRefresh :=
  ⟨(claimC8_reject_response (singleHits "9.9.9.9" ⟨10, 60000⟩)
      ⟨"POST", "/login", some "9.9.9.9", none⟩ 0).1 (by decide) (by decide),
   (claimC8_reject_response emptyHits
      ⟨"POST", "/create", some "9.9.9.9", none⟩ 0).2 (by decide) (by decide)⟩

/-- C9: the rate-limit key prefers the direct connection address; when
that is absent it falls back to the trimmed first comma-separated entry
of the x-forwarded-for header; when neither is present the literal
sentinel "unknown" is used, so all such clients share one bucket. -/
theorem claimC9_key_derivation :
    (∀ (s : String) (xff : Option String), s ≠ "" → clientIp (some s) xff = s) ∧
    (∀ h : String, jsTrim (firstCommaEntry h) ≠ "" →
      clientIp none (some h) = jsTrim (firstCommaEntry h)) ∧
    clientIp none none = "unknown" := by
  refine ⟨?_, ?_, rfl⟩
  · intro s xff hs
    simp [clientIp, hs]
  · intro h hh
    show xffClientIp (some h) = jsTrim (firstCommaEntry h)
    simp only [xffClientIp]
    rw [if_neg hh]

/-- Witness for C9 at concrete inputs: a direct address wins over the
header, the header's first entry is used when the address is absent,
and no data at all gives the sentinel. -/
theorem claimC9_witness :
    clientIp (some "10.0.0.1") (some "2.2.2.2, 3.3.3.3") = "10.0.0.1" ∧
    clientIp none (some "2.2.2.2, 3.3.3.3") = "2.2.2.2" ∧
    clientIp none none = "unknown" :=
  ⟨claimC9_key_derivation.1 "10.0.0.1" (some "2.2.2.2, 3.3.3.3") (by decide),
   (claimC9_key_derivation.2.1 "2.2.2.2, 3.3.3.3" (by decide)).trans (by decide),
   claimC9_key_derivation.2.2⟩

example : jsTrim (firstCommaEntry "2.2.2.2, 3.3.3.3") = "2.2.2.2" := by decide

/-- C10: when the direct address is absent or the empty string and the
x-forwarded-for header is present but its first comma-separated entry
trims to the empty string, the derived key is the sentinel "unknown" as
well: the shared-bucket collapse also happens for present-but-blank
headers. -/
theorem claimC10_blank_header (ip : Option String) (h : String)
    (hip : ip = none ∨ ip = some "")
    (hh : jsTrim (firstCommaEntry h) = "") :
    clientIp ip (some h) = "unknown" := by
  have hx : xffClientIp (some h) = "unknown" := by
    simp only [xffClientIp]
    rw [if_pos hh]
  rcases hip with rfl | rfl
  · simpa [clientIp] using hx
  · simpa [clientIp] using hx

/-- Witness for C10 at concrete inputs: an empty header value, and a
header starting with a blank entry while the direct address is the
empty string, both collapse to the sentinel. -/
theorem claimC10_witness :
    clientIp none (some "") = "unknown" ∧
    clientIp (some "") (some " ,1.2.3.4") = "unknown" :=
  ⟨claimC10_blank_header none "" (Or.inl rfl) (by decide),
   claimC10_blank_header (some "") " ,1.2.3.4" (Or.inr rfl) (by decide)⟩

end AlxPolly
